import Mathlib

/-!
Shallow embedding of the aggregation core of fimo (src/fimo/monitor.py):
the record filter (catlist), the monthly bucketed sums
(monthlycatsumplotdata), the cumulative running sums (catsumplotdata),
sorting (sort_records) and display truncation (_truncate_string),
together with theorems about the claims of the specification.

Modelling conventions: Python dates become a year/month/day structure
with lexicographic comparison; money values stay integers (cents) and
float division by 100 becomes exact division in ℚ; Python None becomes
Option.none; a Python function that can raise becomes Except; a Python
function that falls off its end without a return statement returns none.
-/

instance {ε α : Type} [DecidableEq ε] [DecidableEq α] : DecidableEq (Except ε α) :=
  fun a b =>
    match a, b with
    | .ok x, .ok y =>
      if h : x = y then isTrue (by rw [h]) else isFalse (fun hc => by cases hc; exact h rfl)
    | .error x, .error y =>
      if h : x = y then isTrue (by rw [h]) else isFalse (fun hc => by cases hc; exact h rfl)
    | .ok _, .error _ => isFalse (fun hc => by cases hc)
    | .error _, .ok _ => isFalse (fun hc => by cases hc)

namespace Fimo

/-- Calendar date, mirroring Python datetime.date (compared
lexicographically by year, month, day). -/
structure Date where
  year : Nat
  month : Nat
  day : Nat
deriving DecidableEq, Repr

/-- Strict date comparison, mirroring Python date < date. -/
def dateLT (a b : Date) : Bool :=
  decide (a.year < b.year ∨ (a.year = b.year ∧
    (a.month < b.month ∨ (a.month = b.month ∧ a.day < b.day))))

/-- Non-strict date comparison (the order is total, so a ≤ b iff ¬ b < a). -/
def dateLE (a b : Date) : Bool := !(dateLT b a)

/-- A transaction record, mirroring importer.AccountRecord as used by
monitor.py: spender, date, integer value in minor units, free-text
fields and a set of labels (modelled as a list; only membership is
used). -/
structure AccountRecord where
  spender : String
  date : Date
  value : Int
  receiver : String
  purpose : String
  comment : String
  labels : List String
deriving DecidableEq, Repr

/-- monitor.py line 12: the reserved skip marker. -/
def SKIP_LABEL : String := "SKIP"

/-- monitor.py lines 16-22: the sort-field enumeration. -/
inductive SortField where
  | SPENDER
  | DATE
  | VALUE
  | RECEIVER
  | PURPOSE
  | COMMENT
deriving DecidableEq, Repr

/-- A sort key value: Python compares whatever field type the key
function returned (string, date or int). -/
inductive KeyVal where
  | s (v : String)
  | d (v : Date)
  | i (v : Int)
deriving DecidableEq, Repr

/-- The field accessed by keyf for each enumeration member
(monitor.py lines 40-51, the six elif branches). -/
def keyval (f : SortField) (x : AccountRecord) : KeyVal :=
  match f with
  | .SPENDER => .s x.spender
  | .DATE => .d x.date
  | .VALUE => .i x.value
  | .RECEIVER => .s x.receiver
  | .PURPOSE => .s x.purpose
  | .COMMENT => .s x.comment

/-- monitor.py lines 39-55: the key closure keyf. field is the
Optional[SortField] captured from sort_records; when it is None the
else branch raises ValueError("Unknown Sort Field"). -/
def keyf (field : Option SortField) (x : AccountRecord) : Except String KeyVal :=
  match field with
  | some f => .ok (keyval f x)
  | none => .error "Unknown Sort Field"

/-- Strict comparison of key values (same-constructor comparison; a
mixed comparison never happens within one sort). -/
def keyLT : KeyVal → KeyVal → Bool
  | .s a, .s b => decide (a < b)
  | .d a, .d b => dateLT a b
  | .i a, .i b => decide (a < b)
  | _, _ => false

/-- Stable insertion: x is placed after every element strictly below it,
hence before equal elements that occurred later in the input. -/
def insertBy (lt : α → α → Bool) (x : α) : List α → List α
  | [] => [x]
  | y :: ys => if lt y x then y :: insertBy lt x ys else x :: y :: ys

/-- Stable ascending sort by a strict comparison, mirroring Python
sorted(). -/
def sortBy (lt : α → α → Bool) : List α → List α
  | [] => []
  | x :: xs => insertBy lt x (sortBy lt xs)

/-- The record comparison used by sorted(data, key=keyf, reverse=...):
ascending by key, or stable descending when reverse is set. -/
def recLT (f : SortField) (reverse : Bool) (x y : AccountRecord) : Bool :=
  if reverse then keyLT (keyval f y) (keyval f x) else keyLT (keyval f x) (keyval f y)

/-- monitor.py lines 34-60: sort_records. With field = None the list is
returned unchanged and keyf is never invoked; otherwise the list is
sorted by the key. A ValueError from keyf would surface as Except.error. -/
def sort_records (data : List AccountRecord) (field : Option SortField)
    (reverse : Bool) : Except String (List AccountRecord) :=
  match field with
  | none => .ok data
  | some f => .ok (sortBy (recLT f reverse) data)

/-- Python slicing s[:k]: a negative k counts from the end
(max(0, len+k) elements), a non-negative k takes the first k. -/
def pyTake (s : List Char) (k : Int) : List Char :=
  if 0 ≤ k then s.take k.toNat else s.take (s.length - (-k).toNat)

/-- monitor.py lines 25-31: _truncate_string. The guard is Python
truthiness: max_length must be non-None and non-zero, and the input
longer than it; then the slice str_input[: max_length - 3] (which is a
negative slice when max_length < 3) is extended with "...". -/
def truncate_string (str_input : List Char) (max_length : Option Nat) : List Char :=
  let str_end : List Char := ['.', '.', '.']
  let length := str_input.length
  match max_length with
  | none => str_input
  | some m =>
    if m ≠ 0 ∧ length > m then pyTake str_input ((m : Int) - (str_end.length : Int)) ++ str_end
    else str_input

/-- Default startdate of RecordQuery / catlist (monitor.py line 231). -/
def date2000 : Date := ⟨2000, 1, 31⟩

/-- Default enddate of RecordQuery / catlist (monitor.py line 232). -/
def date2050 : Date := ⟨2050, 1, 31⟩

/-- monitor.py lines 227-246: catlist. records stands for self.data().
A record passes iff the label filter is absent/empty or intersects the
record's labels, the record is not tagged SKIP, the spender matches when
given, and startdate < date < enddate (strict on both ends). -/
def catlist (records : List AccountRecord) (labels : Option (List String))
    (spender : Option String) (startdate enddate : Date) : List AccountRecord :=
  records.filter (fun d =>
    (match labels with
     | none => true
     | some ls => ls.isEmpty || ls.any (fun l => d.labels.contains l))
    && !(d.labels.contains SKIP_LABEL)
    && (match spender with
        | none => true
        | some s => d.spender == s)
    && dateLT startdate d.date
    && dateLT d.date enddate)

/-- Leap year, Gregorian rule. -/
def isLeap (y : Nat) : Bool :=
  decide ((y % 4 = 0 ∧ y % 100 ≠ 0) ∨ y % 400 = 0)

/-- Number of days in a month. -/
def daysInMonth (y m : Nat) : Nat :=
  if m = 2 then (if isLeap y then 29 else 28)
  else if m = 4 ∨ m = 6 ∨ m = 9 ∨ m = 11 then 30
  else 31

/-- Linear month index of a date (year * 12 + zero-based month). -/
def monthIdx (d : Date) : Nat := d.year * 12 + (d.month - 1)

/-- dateutil rrule(MONTHLY, dtstart, until): one occurrence per calendar
month carrying dtstart's day-of-month, skipping months that lack that
day, from dtstart up to and including until. -/
def rruleMonthly (dtstart untilDate : Date) : List Date :=
  let a := monthIdx dtstart
  let b := monthIdx untilDate
  ((List.range (b + 1 - a)).map (fun k =>
      let i := a + k
      Date.mk (i / 12) (i % 12 + 1) dtstart.day)).filter
    (fun d => decide (dtstart.day ≤ daysInMonth d.year d.month) && dateLE d untilDate)

/-- The day before a date (timedelta(days=1) subtraction). -/
def predDay (d : Date) : Date :=
  if 2 ≤ d.day then ⟨d.year, d.month, d.day - 1⟩
  else if 2 ≤ d.month then ⟨d.year, d.month - 1, daysInMonth d.year (d.month - 1)⟩
  else ⟨d.year - 1, 12, 31⟩

/-- Zero-padded two-digit month as in strftime %m. -/
def pad2 (n : Nat) : String :=
  if n < 10 then "0" ++ toString n else toString n

/-- Zero-padded four-digit year as in strftime %Y. -/
def pad4 (n : Nat) : String :=
  (if n < 10 then "000" else if n < 100 then "00" else if n < 1000 then "0" else "")
    ++ toString n

/-- strftime("%Y-%m"). -/
def formatYM (d : Date) : String := pad4 d.year ++ "-" ++ pad2 d.month

/-- The sign factor (1 - 2 * int(invert)). -/
def signInt (invert : Bool) : Int := 1 - 2 * (if invert then 1 else 0)

/-- One bucket's sum (monitor.py lines 282-287): the filtered records
restricted to [b1, b2) via catlist, summed, signed and divided by 100. -/
def bucketSum (records : List AccountRecord) (labels : Option (List String))
    (spender : Option String) (b1 b2 : Date) (invert : Bool) : ℚ :=
  ((signInt invert * ((catlist records labels spender b1 b2).map (·.value)).sum : Int) : ℚ) / 100

/-- monitor.py lines 267-274: the month-boundary dates generated inside
monthlycatsumplotdata: the label/spender-filtered full history (catlist
with the default date bounds) is sorted by date, the query range is
clamped to its first/last dates, and rrule(MONTHLY) runs over the
clamped range. Empty when no records survive the filter. -/
def monthlyStepdays (records : List AccountRecord) (labels : Option (List String))
    (spender : Option String) (startdate enddate : Date) : List Date :=
  match sortBy (recLT .DATE false) (catlist records labels spender date2000 date2050) with
  | [] => []
  | first :: rest =>
    rruleMonthly
      (if dateLT first.date startdate then startdate else first.date)
      (if dateLT enddate (rest.getLastD first).date then enddate
       else (rest.getLastD first).date)

/-- monitor.py lines 259-290: monthlycatsumplotdata. Returns ([], [])
when the filtered full history is empty; raises "Date range must be at
least one month" when the boundary list is empty (len(stepdays) < 1);
otherwise, for each consecutive boundary pair, the bucket label
strftime("%Y-%m") of (second boundary - 1 day) and the bucket sum. -/
def monthlycatsumplotdata (records : List AccountRecord)
    (labels : Option (List String)) (spender : Option String)
    (startdate enddate : Date) (invert : Bool) :
    Except String (List String × List ℚ) :=
  match sortBy (recLT .DATE false) (catlist records labels spender date2000 date2050) with
  | [] => .ok ([], [])
  | _ :: _ =>
    let stepdays := monthlyStepdays records labels spender startdate enddate
    if stepdays.length < 1 then .error "Date range must be at least one month"
    else
      let pairs := stepdays.zip stepdays.tail
      .ok (pairs.map (fun p => formatYM (predDay p.2)),
           pairs.map (fun p => bucketSum records labels spender p.1 p.2 invert))

/-- The loop of monitor.py lines 302-310: for each filtered record in
order, append its date and the running total (previous last sum, or 0,
plus the record's signed value / 100). -/
def runningSums (catdata : List AccountRecord) (invert : Bool) :
    List Date × List ℚ :=
  catdata.foldl
    (fun acc d =>
      (acc.1 ++ [d.date],
       acc.2 ++ [(acc.2.getLast?.getD 0) + ((signInt invert * d.value : Int) : ℚ) / 100]))
    ([], [])

/-- monitor.py lines 292-310: catsumplotdata. The body filters the
records and computes the running-sum lists, but the function has no
return statement, so it returns Python None (Option.none) on every
input; the computed lists are discarded. -/
def catsumplotdata (records : List AccountRecord) (labels : Option (List String))
    (spender : Option String) (startdate enddate : Date) (invert : Bool) :
    Option (List Date × List ℚ) :=
  let catdata := catlist records labels spender startdate enddate
  let _ := runningSums catdata invert
  none

/-- First record of the spec scenario: value 1000, date 2024-01-10,
labels {"food"}. -/
def recScenario1 : AccountRecord := ⟨"a", ⟨2024, 1, 10⟩, 1000, "", "", "", ["food"]⟩

/-- Second record of the spec scenario: value 500, date 2024-02-05,
labels {"food"}. -/
def recScenario2 : AccountRecord := ⟨"a", ⟨2024, 2, 5⟩, 500, "", "", "", ["food"]⟩

/-- Record set whose "food" and "rent" sublists occupy disjoint parts of
the year, so label filters change the clamped data extent. -/
def recsTwoCat : List AccountRecord :=
  [⟨"a", ⟨2024, 1, 10⟩, 1000, "", "", "", ["food"]⟩,
   ⟨"a", ⟨2024, 3, 20⟩, 200, "", "", "", ["food"]⟩,
   ⟨"a", ⟨2024, 6, 15⟩, 300, "", "", "", ["rent"]⟩,
   ⟨"a", ⟨2024, 8, 25⟩, 400, "", "", "", ["rent"]⟩]

/-- Two records tagged with both "food" and "meal", so both label
filters select the same sublist. -/
def recsDualLabel : List AccountRecord :=
  [⟨"a", ⟨2024, 1, 10⟩, 1000, "", "", "", ["food", "meal"]⟩,
   ⟨"a", ⟨2024, 3, 20⟩, 200, "", "", "", ["food", "meal"]⟩]

/-! ## Helper lemmas -/

theorem dateLT_iff (a b : Date) : dateLT a b = true ↔
    (a.year < b.year ∨ (a.year = b.year ∧
      (a.month < b.month ∨ (a.month = b.month ∧ a.day < b.day)))) := by
  simp [dateLT]

theorem dateLE_iff (a b : Date) : dateLE a b = true ↔
    ¬ (b.year < a.year ∨ (b.year = a.year ∧
      (b.month < a.month ∨ (b.month = a.month ∧ b.day < a.day)))) := by
  rw [dateLE, Bool.not_eq_true', dateLT, decide_eq_false_iff_not]

theorem dateLT_le {a b : Date} (h : dateLT a b = true) : dateLE a b = true := by
  rw [dateLT_iff] at h
  rw [dateLE_iff]
  omega

theorem dateLE_refl (a : Date) : dateLE a a = true := by
  rw [dateLE_iff]
  omega

theorem dateLE_trans {a b c : Date} (h1 : dateLE a b = true)
    (h2 : dateLE b c = true) : dateLE a c = true := by
  rw [dateLE_iff] at h1 h2 ⊢
  omega

theorem mem_insertBy (lt : α → α → Bool) (x a : α) (l : List α) :
    a ∈ insertBy lt x l ↔ a = x ∨ a ∈ l := by
  induction l with
  | nil => simp [insertBy]
  | cons y ys ih =>
    simp only [insertBy]
    split
    · rw [List.mem_cons, List.mem_cons, ih]
      tauto
    · rw [List.mem_cons, List.mem_cons]

theorem mem_sortBy (lt : α → α → Bool) (a : α) (l : List α) :
    a ∈ sortBy lt l ↔ a ∈ l := by
  induction l with
  | nil => simp [sortBy]
  | cons x xs ih => simp [sortBy, mem_insertBy, ih]

theorem mem_catlist {records : List AccountRecord} {labels : Option (List String)}
    {spender : Option String} {sd ed : Date} {r : AccountRecord}
    (hr : r ∈ catlist records labels spender sd ed) :
    r ∈ records ∧ r.labels.contains SKIP_LABEL = false ∧
      dateLT sd r.date = true ∧ dateLT r.date ed = true := by
  rw [catlist, List.mem_filter] at hr
  obtain ⟨hmem, hcond⟩ := hr
  simp only [Bool.and_eq_true, Bool.not_eq_true'] at hcond
  exact ⟨hmem, hcond.1.1.1.2, hcond.1.2, hcond.2⟩

theorem rrule_le_until {b s e : Date} (hb : b ∈ rruleMonthly s e) :
    dateLE b e = true := by
  rw [rruleMonthly, List.mem_filter] at hb
  have h := hb.2
  simp only [Bool.and_eq_true] at h
  exact h.2

theorem rrule_ge_start {b s e : Date} (hb : b ∈ rruleMonthly s e)
    (h1 : 1 ≤ s.month) (h2 : s.month ≤ 12) : dateLE s b = true := by
  rw [rruleMonthly, List.mem_filter] at hb
  obtain ⟨hmap, _⟩ := hb
  simp only [List.mem_map, List.mem_range] at hmap
  obtain ⟨k, _, hk⟩ := hmap
  subst hk
  rw [dateLE_iff]
  simp only [monthIdx]
  omega

theorem mem_getLastD_cons (a : α) (l : List α) : l.getLastD a ∈ a :: l := by
  induction l generalizing a with
  | nil => simp
  | cons x xs ih =>
    simp only [List.getLastD_cons]
    exact List.mem_cons_of_mem a (ih x)

/-! ## Claim theorems -/

/-- C1 counterexample: on the spec scenario (records valued 1000 and 500
dated 2024-01-10 and 2024-02-05 with label "food", query labels
["food"], startdate 2023-12-31, enddate 2024-03-01),
monthlycatsumplotdata does not return the buckets
["2024-01", "2024-02"] with sums [10, 5] that the claim states. -/
theorem monthlycatsumplotdata_scenario_ne :
    monthlycatsumplotdata [recScenario1, recScenario2] (some ["food"]) none
      ⟨2023, 12, 31⟩ ⟨2024, 3, 1⟩ false ≠
      Except.ok (["2024-01", "2024-02"], [10, 5]) := by
  decide

/-- C1 (amended): on the spec scenario, monthlycatsumplotdata returns
([], []): the clamped range runs from 2024-01-10 (earliest record) to
2024-02-05 (latest record), rrule anchored at day 10 yields the single
boundary 2024-01-10, so no consecutive boundary pair and hence no bucket
exists, and the length check (< 1) does not fire. -/
theorem monthlycatsumplotdata_scenario_empty :
    monthlycatsumplotdata [recScenario1, recScenario2] (some ["food"]) none
      ⟨2023, 12, 31⟩ ⟨2024, 3, 1⟩ false = Except.ok ([], []) := by
  decide

/-- C3: with a single record the clamped range collapses to one day, the
boundary list has exactly one element (fewer than two boundaries, i.e.
less than one full month), yet monthlycatsumplotdata silently returns
([], []) instead of raising the configuration error: the guard
len(stepdays) < 1 only fires on an empty boundary list. -/
theorem monthlycatsumplotdata_short_range_silent :
    (monthlyStepdays [recScenario1] (some ["food"]) none date2000 date2050).length = 1 ∧
    monthlycatsumplotdata [recScenario1] (some ["food"]) none date2000 date2050 false =
      Except.ok ([], []) := by
  exact ⟨by decide, by decide⟩

/-- C4: catsumplotdata on a query matching no records returns Python
None (the body has no return statement), not the ([], []) the claim
states; the running-sum lists it computes internally are indeed
([], []). -/
theorem catsumplotdata_no_match_returns_none :
    catsumplotdata [recScenario1] (some ["zzz"]) none date2000 date2050 false = none ∧
    runningSums (catlist [recScenario1] (some ["zzz"]) none date2000 date2050) false =
      ([], []) :=
  ⟨rfl, by decide⟩

/-- C5: catsumplotdata on the spec scenario (two matching records)
returns Python None (the body has no return statement), not the
(dates, cumulative values) pair the claim states; the running-sum lists
it computes internally are the intended ones, ending in
(1000 + 500) / 100 = 15. -/
theorem catsumplotdata_scenario_returns_none :
    catsumplotdata [recScenario1, recScenario2] (some ["food"]) none
      ⟨2023, 12, 31⟩ ⟨2024, 3, 1⟩ false = none ∧
    runningSums (catlist [recScenario1, recScenario2] (some ["food"]) none
      ⟨2023, 12, 31⟩ ⟨2024, 3, 1⟩) false =
      ([⟨2024, 1, 10⟩, ⟨2024, 2, 5⟩], [10, 15]) := by
  refine ⟨rfl, ?_⟩
  have h : catlist [recScenario1, recScenario2] (some ["food"]) none
      ⟨2023, 12, 31⟩ ⟨2024, 3, 1⟩ = [recScenario1, recScenario2] := by decide
  rw [h]
  norm_num [runningSums, recScenario1, recScenario2, signInt, List.foldl,
    List.getLast?, List.getLast]

/-- C6: catlist never returns a record whose label set contains the
reserved skip marker "SKIP", for every record set and every combination
of filter arguments. -/
theorem catlist_no_skip (records : List AccountRecord)
    (labels : Option (List String)) (spender : Option String) (sd ed : Date) :
    ∀ r ∈ catlist records labels spender sd ed, SKIP_LABEL ∉ r.labels := by
  intro r hr
  have h := (mem_catlist hr).2.1
  simpa using h

/-- Witness for C6 at a concrete input. -/
theorem catlist_no_skip_witness :
    recScenario1 ∈ catlist [recScenario1] (some ["food"]) none date2000 date2050 ∧
    SKIP_LABEL ∉ recScenario1.labels :=
  ⟨by decide,
   catlist_no_skip [recScenario1] (some ["food"]) none date2000 date2050
     recScenario1 (by decide)⟩

/-- C7: the date bounds of catlist are strict and exclusive on both
ends: every returned record satisfies startdate < date < enddate, and a
record dated exactly on startdate or on enddate is excluded. -/
theorem catlist_date_exclusive (records : List AccountRecord)
    (labels : Option (List String)) (spender : Option String) (sd ed : Date) :
    (∀ r ∈ catlist records labels spender sd ed,
      dateLT sd r.date = true ∧ dateLT r.date ed = true) ∧
    (∀ r : AccountRecord, r.date = sd ∨ r.date = ed →
      r ∉ catlist records labels spender sd ed) := by
  have hmain : ∀ r ∈ catlist records labels spender sd ed,
      dateLT sd r.date = true ∧ dateLT r.date ed = true :=
    fun r hr => ⟨(mem_catlist hr).2.2.1, (mem_catlist hr).2.2.2⟩
  refine ⟨hmain, ?_⟩
  rintro r (h | h) hmem
  · have h2 := (hmain r hmem).1
    rw [h, dateLT_iff] at h2
    omega
  · have h2 := (hmain r hmem).2
    rw [h, dateLT_iff] at h2
    omega

/-- Witness for C7 at a concrete input: a record dated exactly on
startdate is excluded. -/
theorem catlist_date_exclusive_witness :
    recScenario1 ∉ catlist [recScenario1] (some ["food"]) none ⟨2024, 1, 10⟩ date2050 :=
  (catlist_date_exclusive [recScenario1] (some ["food"]) none
    ⟨2024, 1, 10⟩ date2050).2 recScenario1 (Or.inl rfl)

/-- C2 counterexample: two queries on the same record set that agree on
spender (none), startdate and enddate (the defaults) but filter by
"food" versus "rent" generate different month-boundary sequences and
different bucket labels, because the clamp uses the extent of the
label-filtered data. -/
theorem monthlycatsumplotdata_labels_affect_buckets :
    monthlyStepdays recsTwoCat (some ["food"]) none date2000 date2050 ≠
      monthlyStepdays recsTwoCat (some ["rent"]) none date2000 date2050 ∧
    Except.map Prod.fst
        (monthlycatsumplotdata recsTwoCat (some ["food"]) none date2000 date2050 false) ≠
      Except.map Prod.fst
        (monthlycatsumplotdata recsTwoCat (some ["rent"]) none date2000 date2050 false) :=
  ⟨by decide, by decide⟩

/-- C2 (amended): boundary generation depends on the query only through
startdate, enddate, spender and the extent (earliest and latest dates)
of the label-filtered data: two queries agreeing on spender, startdate
and enddate whose label filters yield data with the same earliest and
latest dates generate identical boundaries (the boundaries are not
independent of the label filter itself, which can change that extent). -/
theorem monthlyStepdays_ext (records : List AccountRecord)
    (lA lB : Option (List String)) (spender : Option String) (sd ed : Date)
    (fA fB : AccountRecord) (rA rB : List AccountRecord)
    (hA : sortBy (recLT .DATE false) (catlist records lA spender date2000 date2050) = fA :: rA)
    (hB : sortBy (recLT .DATE false) (catlist records lB spender date2000 date2050) = fB :: rB)
    (hf : fA.date = fB.date)
    (hl : (rA.getLastD fA).date = (rB.getLastD fB).date) :
    monthlyStepdays records lA spender sd ed =
      monthlyStepdays records lB spender sd ed := by
  rw [monthlyStepdays, monthlyStepdays, hA, hB]
  show rruleMonthly (if dateLT fA.date sd then sd else fA.date)
      (if dateLT ed (rA.getLastD fA).date then ed else (rA.getLastD fA).date) =
    rruleMonthly (if dateLT fB.date sd then sd else fB.date)
      (if dateLT ed (rB.getLastD fB).date then ed else (rB.getLastD fB).date)
  rw [hf, hl]

/-- Witness for C2 (amended) at a concrete input: records tagged with
both labels, so both filters have the same extent. -/
theorem monthlyStepdays_ext_witness :
    monthlyStepdays recsDualLabel (some ["food"]) none date2000 date2050 =
      monthlyStepdays recsDualLabel (some ["meal"]) none date2000 date2050 :=
  monthlyStepdays_ext recsDualLabel (some ["food"]) (some ["meal"]) none
    date2000 date2050
    ⟨"a", ⟨2024, 1, 10⟩, 1000, "", "", "", ["food", "meal"]⟩
    ⟨"a", ⟨2024, 1, 10⟩, 1000, "", "", "", ["food", "meal"]⟩
    [⟨"a", ⟨2024, 3, 20⟩, 200, "", "", "", ["food", "meal"]⟩]
    [⟨"a", ⟨2024, 3, 20⟩, 200, "", "", "", ["food", "meal"]⟩]
    (by decide) (by decide) rfl rfl

/-- C8: every month boundary generated inside monthlycatsumplotdata lies
within the closed interval [minimum record date, maximum record date] of
the record set: some record's date is at or before the boundary and some
record's date is at or after it (record dates and the query startdate
are assumed calendar-valid: month between 1 and 12). -/
theorem monthlyStepdays_within_data (records : List AccountRecord)
    (labels : Option (List String)) (spender : Option String) (sd ed b : Date)
    (hmonths : ∀ r ∈ records, 1 ≤ r.date.month ∧ r.date.month ≤ 12)
    (hsd : 1 ≤ sd.month ∧ sd.month ≤ 12)
    (hb : b ∈ monthlyStepdays records labels spender sd ed) :
    (∃ r ∈ records, dateLE r.date b = true) ∧
    (∃ r ∈ records, dateLE b r.date = true) := by
  rw [monthlyStepdays] at hb
  split at hb
  · simp at hb
  · next first rest heq =>
    have hfirst_mem : first ∈ records := by
      have hm : first ∈ sortBy (recLT .DATE false)
          (catlist records labels spender date2000 date2050) := by
        rw [heq]
        exact List.mem_cons_self _ _
      rw [mem_sortBy] at hm
      exact (mem_catlist hm).1
    have hlast_mem : rest.getLastD first ∈ records := by
      have hm : rest.getLastD first ∈ sortBy (recLT .DATE false)
          (catlist records labels spender date2000 date2050) := by
        rw [heq]
        exact mem_getLastD_cons first rest
      rw [mem_sortBy] at hm
      exact (mem_catlist hm).1
    refine ⟨⟨first, hfirst_mem, ?_⟩, ⟨rest.getLastD first, hlast_mem, ?_⟩⟩
    · have hsmonth : 1 ≤ (if dateLT first.date sd then sd else first.date).month ∧
          (if dateLT first.date sd then sd else first.date).month ≤ 12 := by
        split
        · exact hsd
        · exact hmonths first hfirst_mem
      have hsb := rrule_ge_start hb hsmonth.1 hsmonth.2
      have hfs : dateLE first.date
          (if dateLT first.date sd then sd else first.date) = true := by
        split
        · next hcc => exact dateLT_le hcc
        · exact dateLE_refl _
      exact dateLE_trans hfs hsb
    · have hbe := rrule_le_until hb
      have hel : dateLE (if dateLT ed (rest.getLastD first).date then ed
          else (rest.getLastD first).date) (rest.getLastD first).date = true := by
        split
        · next hcc => exact dateLT_le hcc
        · exact dateLE_refl _
      exact dateLE_trans hbe hel

/-- Witness for C8 at a concrete input: the middle boundary 2024-02-10
of the "food" query over recsTwoCat is bounded by record dates on both
sides. -/
theorem monthlyStepdays_within_data_witness :
    (∃ r ∈ recsTwoCat, dateLE r.date ⟨2024, 2, 10⟩ = true) ∧
    (∃ r ∈ recsTwoCat, dateLE ⟨2024, 2, 10⟩ r.date = true) :=
  monthlyStepdays_within_data recsTwoCat (some ["food"]) none date2000 date2050
    ⟨2024, 2, 10⟩ (by decide) (by decide) (by decide)

/-- C9 counterexample: with truncation limit 1 (a positive limit) the
input "abc" is longer than the limit, the Python slice str[: 1 - 3]
is a negative slice keeping one character, and the result "a..." has
length 4 > 1: the claimed bound fails for limits below the ellipsis
length. -/
theorem truncate_string_exceeds_limit :
    ¬ ((truncate_string ("abc".toList) (some 1)).length ≤ 1) := by
  decide

/-- C9 (amended): for every truncation limit of at least 3 (the length
of the ellipsis marker), the result of truncate_string never exceeds
the limit, and an input within the limit is returned unchanged. -/
theorem truncate_string_within_limit (s : List Char) (n : Nat) (h : 3 ≤ n) :
    (truncate_string s (some n)).length ≤ n ∧
    (s.length ≤ n → truncate_string s (some n) = s) := by
  simp only [truncate_string]
  split
  · next hc =>
    obtain ⟨hn0, hlen⟩ := hc
    refine ⟨?_, fun hle => by omega⟩
    simp only [pyTake, List.length_append, List.length_cons, List.length_nil]
    split
    · simp only [List.length_take]
      omega
    · next hneg =>
      exfalso
      omega
  · next hc =>
    exact ⟨by omega, fun _ => rfl⟩

/-- Witness for C9 (amended) at a concrete input. -/
theorem truncate_string_within_limit_witness :
    (truncate_string ("abcdefgh".toList) (some 5)).length ≤ 5 ∧
    (("abcdefgh".toList).length ≤ 5 →
      truncate_string ("abcdefgh".toList) (some 5) = "abcdefgh".toList) :=
  truncate_string_within_limit ("abcdefgh".toList) 5 (by decide)

/-- C10: sort_records never surfaces the "Unknown Sort Field" error
through its public interface: with field = None the input list is
returned unchanged (keyf is never invoked), with any of the six
SortField members keyf returns the corresponding record field, and the
sorted list is returned without error. -/
theorem sort_records_total :
    (∀ (data : List AccountRecord) (reverse : Bool),
      sort_records data none reverse = .ok data) ∧
    (∀ (f : SortField) (x : AccountRecord), keyf (some f) x = .ok (keyval f x)) ∧
    (∀ (data : List AccountRecord) (f : SortField) (reverse : Bool),
      sort_records data (some f) reverse = .ok (sortBy (recLT f reverse) data)) :=
  ⟨fun _ _ => rfl, fun _ _ => rfl, fun _ _ _ => rfl⟩

end Fimo
